import Mathlib

/-!
Verification of the aerosense ingestion/normalization core.

Shallow embedding of the Python sources under `aqi_app/`:
* `services/live_aqi_fetcher.py` — AQI index converter (`_linear`, `compute_aqi`,
  `compute_overall_aqi`, the PM2.5/PM10 breakpoint tables) and the OpenAQ fetcher;
* `management/commands/fetch_india_aqi.py` — `clean_city_name`, WAQI fetch and store;
* `management/commands/fetch_aqi.py` — reading upsert;
* `services/waqi_fetcher.py` — WAQI bounds adapter;
* `utils/product_recommender.py` — `ProductRecommender`.

Machine reals of the Python code are modelled as `ℚ`; Python `None` as `Option`;
raised exceptions as `Except`.  Counterexamples below are chosen at inputs where
Python float arithmetic is exact, so the `ℚ` model provably agrees with the code
at those points.
-/

namespace Aerosense

/-- A row of a breakpoint table: the Python 4-tuples
`(Clow, Chigh, Ilow, Ihigh)` of `PM25_BREAKPOINTS` / `PM10_BREAKPOINTS`
in `live_aqi_fetcher.py`.  Concentration bounds are floats (modelled `ℚ`),
index bounds are ints. -/
structure Breakpoint where
  clow : ℚ
  chigh : ℚ
  ilow : ℤ
  ihigh : ℤ
deriving DecidableEq

/-- Embedding of the Python 3 builtin `round(x)` on a rational argument:
round to the nearest integer, ties to the even integer (banker's rounding,
as documented for Python 3 `round`). -/
def pyRound (q : ℚ) : ℤ :=
  if Int.fract q < 1/2 then ⌊q⌋
  else if 1/2 < Int.fract q then ⌊q⌋ + 1
  else if ⌊q⌋ % 2 = 0 then ⌊q⌋ else ⌊q⌋ + 1

/-- Embedding of `_linear` (`live_aqi_fetcher.py` lines 31-32):
`int(round(((Ihigh - Ilow) / (Chigh - Clow)) * (C - Clow) + Ilow))`
(`int` applied to the integer returned by `round` is the identity). -/
def linear (C Clow Chigh : ℚ) (Ilow Ihigh : ℤ) : ℤ :=
  pyRound (((Ihigh : ℚ) - (Ilow : ℚ)) / (Chigh - Clow) * (C - Clow) + (Ilow : ℚ))

/-- The `for`-loop of `compute_aqi`: return `_linear` at the first tuple with
`Clow <= C <= Chigh`, else fall through. -/
def firstMatch (C : ℚ) : List Breakpoint → Option ℤ
  | [] => none
  | bp :: rest =>
    if bp.clow ≤ C ∧ C ≤ bp.chigh then
      some (linear C bp.clow bp.chigh bp.ilow bp.ihigh)
    else firstMatch C rest

/-- Embedding of `compute_aqi` (`live_aqi_fetcher.py` lines 35-42):
`None` input propagates, otherwise scan the table for the first matching
tuple, returning `None` when no tuple matches. -/
def compute_aqi (C : Option ℚ) (breakpoints : List Breakpoint) : Option ℤ :=
  match C with
  | none => none
  | some c => firstMatch c breakpoints

/-- `PM25_BREAKPOINTS` from `live_aqi_fetcher.py` lines 10-18. -/
def PM25_BREAKPOINTS : List Breakpoint :=
  [⟨0, 12, 0, 50⟩,
   ⟨12.1, 35.4, 51, 100⟩,
   ⟨35.5, 55.4, 101, 150⟩,
   ⟨55.5, 150.4, 151, 200⟩,
   ⟨150.5, 250.4, 201, 300⟩,
   ⟨250.5, 350.4, 301, 400⟩,
   ⟨350.5, 500.4, 401, 500⟩]

/-- `PM10_BREAKPOINTS` from `live_aqi_fetcher.py` lines 20-28. -/
def PM10_BREAKPOINTS : List Breakpoint :=
  [⟨0, 54, 0, 50⟩,
   ⟨55, 154, 51, 100⟩,
   ⟨155, 254, 101, 150⟩,
   ⟨255, 354, 151, 200⟩,
   ⟨355, 424, 201, 300⟩,
   ⟨425, 504, 301, 400⟩,
   ⟨505, 604, 401, 500⟩]

/-- Embedding of `compute_overall_aqi` (`live_aqi_fetcher.py` lines 45-50):
collect the per-pollutant indices that are present and take `max`,
`None` when both are absent. -/
def compute_overall_aqi (pm25 pm10 : Option ℚ) : Option ℤ :=
  let values :=
    [compute_aqi pm25 PM25_BREAKPOINTS, compute_aqi pm10 PM10_BREAKPOINTS].filterMap id
  match values with
  | [] => none
  | v :: vs => some (vs.foldl max v)

/-- Spec-side definition, from the spec's words only: rounding to nearest
integer with ties rounded half-up, i.e. `⌊q + 1/2⌋`.  To be compared with
`pyRound`, the rounding the code actually performs. -/
def specRoundHalfUp (q : ℚ) : ℤ := ⌊q + 1/2⌋

/-- Helper: scanning `pre ++ bp :: post` when nothing in `pre` matches and
`bp` matches returns `bp`'s interpolated value. -/
lemma firstMatch_append (C : ℚ) (pre post : List Breakpoint) (bp : Breakpoint)
    (hpre : ∀ b ∈ pre, ¬ (b.clow ≤ C ∧ C ≤ b.chigh))
    (hlo : bp.clow ≤ C) (hhi : C ≤ bp.chigh) :
    firstMatch C (pre ++ bp :: post) =
      some (linear C bp.clow bp.chigh bp.ilow bp.ihigh) := by
  induction pre with
  | nil =>
    simp only [List.nil_append, firstMatch]
    rw [if_pos ⟨hlo, hhi⟩]
  | cons b bs ih =>
    have hb : ¬ (b.clow ≤ C ∧ C ≤ b.chigh) := hpre b (List.mem_cons_self b bs)
    simp only [List.cons_append, firstMatch]
    rw [if_neg hb]
    exact ih (fun x hx => hpre x (List.mem_cons_of_mem b hx))

/-- Helper: `firstMatch` returns `none` exactly when no tuple contains `C`. -/
lemma firstMatch_eq_none_iff (C : ℚ) (bps : List Breakpoint) :
    firstMatch C bps = none ↔ ∀ bp ∈ bps, ¬ (bp.clow ≤ C ∧ C ≤ bp.chigh) := by
  induction bps with
  | nil => simp [firstMatch]
  | cons b bs ih =>
    by_cases hb : b.clow ≤ C ∧ C ≤ b.chigh
    · simp [firstMatch, if_pos hb, hb]
    · simp only [firstMatch, if_neg hb, ih, List.mem_cons]
      constructor
      · rintro h x (rfl | hx)
        · exact hb
        · exact h x hx
      · intro h x hx
        exact h x (Or.inr hx)

/-- C1 counterexample: the claim says ties (exact .5 fractions) round
half-up.  At `C = 1` in the table `[(0, 2, 0, 1)]` the interpolation value
is exactly `1/2` (all quantities here are float-exact, so the rational
model agrees with the Python floats); the code's `round` returns `0`
(ties to even) while the claimed half-up rounding yields `1`. -/
theorem c1_counterexample :
    compute_aqi (some 1) [⟨0, 2, 0, 1⟩] = some 0 ∧
    specRoundHalfUp ((((1 : ℤ) : ℚ) - ((0 : ℤ) : ℚ)) / ((2 : ℚ) - 0) * ((1 : ℚ) - 0) + ((0 : ℤ) : ℚ)) = 1 := by
  constructor
  · with_unfolding_all decide
  · with_unfolding_all decide

/-- C1 (amended): for every concentration `C` lying within a breakpoint
tuple `(low, high, index_low, index_high)` that is the first tuple of the
table containing `C`, `compute_aqi (C, table)` equals
`round((index_high - index_low) / (high - low) * (C - low) + index_low)`
where ties (exact .5 fractions) are rounded to the nearest even integer
(Python 3 banker's rounding), not half-up. -/
theorem c1_linear_interpolation (C : ℚ) (pre post : List Breakpoint) (bp : Breakpoint)
    (hpre : ∀ b ∈ pre, ¬ (b.clow ≤ C ∧ C ≤ b.chigh))
    (hlo : bp.clow ≤ C) (hhi : C ≤ bp.chigh) :
    compute_aqi (some C) (pre ++ bp :: post) =
      some (pyRound (((bp.ihigh : ℚ) - (bp.ilow : ℚ)) / (bp.chigh - bp.clow) * (C - bp.clow) + (bp.ilow : ℚ))) :=
  firstMatch_append C pre post bp hpre hlo hhi

/-- Witness for C1 (amended): `C = 20` lies in the second PM2.5 tuple
`(12.1, 35.4, 51, 100)` and no earlier tuple; the interpolated value is
`49/23.3 * 7.9 + 51 ≈ 67.61`, rounding to `68`. -/
theorem c1_linear_interpolation_witness :
    compute_aqi (some 20) PM25_BREAKPOINTS = some 68 := by
  have h := c1_linear_interpolation 20 [⟨0, 12, 0, 50⟩]
    [⟨35.5, 55.4, 101, 150⟩, ⟨55.5, 150.4, 151, 200⟩, ⟨150.5, 250.4, 201, 300⟩,
     ⟨250.5, 350.4, 301, 400⟩, ⟨350.5, 500.4, 401, 500⟩]
    ⟨12.1, 35.4, 51, 100⟩
    (by intro b hb; simp only [List.mem_singleton] at hb; subst hb; with_unfolding_all decide)
    (by with_unfolding_all decide) (by with_unfolding_all decide)
  rw [show PM25_BREAKPOINTS =
    [⟨0, 12, 0, 50⟩] ++ (⟨12.1, 35.4, 51, 100⟩ : Breakpoint) ::
      [⟨35.5, 55.4, 101, 150⟩, ⟨55.5, 150.4, 151, 200⟩, ⟨150.5, 250.4, 201, 300⟩,
       ⟨250.5, 350.4, 301, 400⟩, ⟨350.5, 500.4, 401, 500⟩] from rfl]
  rw [h]
  with_unfolding_all decide

/-- C2: `compute_overall_aqi` is the maximum of whichever per-pollutant
indices are present and `none` when both are absent; concretely, a PM2.5
concentration indexing to 120 together with a PM10 concentration indexing
to 80 yields overall 120. -/
theorem c2_overall_max :
    (∀ pm25 pm10 : Option ℚ,
      compute_overall_aqi pm25 pm10 =
        match compute_aqi pm25 PM25_BREAKPOINTS, compute_aqi pm10 PM10_BREAKPOINTS with
        | none, none => none
        | some a, none => some a
        | none, some b => some b
        | some a, some b => some (max a b)) ∧
    compute_aqi (some (216/5)) PM25_BREAKPOINTS = some 120 ∧
    compute_aqi (some (568/5)) PM10_BREAKPOINTS = some 80 ∧
    compute_overall_aqi (some (216/5)) (some (568/5)) = some 120 ∧
    compute_overall_aqi none none = none := by
  refine ⟨?_, ?_, ?_, ?_, rfl⟩
  · intro pm25 pm10
    unfold compute_overall_aqi
    rcases h1 : compute_aqi pm25 PM25_BREAKPOINTS with _ | a <;>
      rcases h2 : compute_aqi pm10 PM10_BREAKPOINTS with _ | b <;>
        simp [h1, h2, List.filterMap]
  · with_unfolding_all decide
  · with_unfolding_all decide
  · with_unfolding_all decide

/-- C6: `compute_aqi` returns `none` exactly when the input concentration
is absent or no tuple of the table contains it; otherwise it returns the
interpolated integer of the first matching tuple. -/
theorem c6_absent_iff (C : Option ℚ) (bps : List Breakpoint) :
    (compute_aqi C bps = none ↔
      C = none ∨ ∃ c, C = some c ∧ ∀ bp ∈ bps, ¬ (bp.clow ≤ c ∧ c ≤ bp.chigh)) ∧
    (∀ c pre bp post, C = some c → bps = pre ++ bp :: post →
      (∀ b ∈ pre, ¬ (b.clow ≤ c ∧ c ≤ b.chigh)) → bp.clow ≤ c → c ≤ bp.chigh →
      compute_aqi C bps = some (linear c bp.clow bp.chigh bp.ilow bp.ihigh)) := by
  constructor
  · rcases C with _ | c
    · simp [compute_aqi]
    · simpa [compute_aqi] using firstMatch_eq_none_iff c bps
  · rintro c pre bp post rfl rfl hpre hlo hhi
    exact firstMatch_append c pre post bp hpre hlo hhi

/-- Witness for C6: `C = 700` is outside every PM2.5 range, giving `none`;
`C = 20` matches the second tuple first, giving its interpolated value. -/
theorem c6_absent_iff_witness :
    compute_aqi (some 700) PM25_BREAKPOINTS = none ∧
    compute_aqi (some 20) PM25_BREAKPOINTS = some (linear 20 12.1 35.4 51 100) := by
  constructor
  · exact (c6_absent_iff (some 700) PM25_BREAKPOINTS).1.2
      (Or.inr ⟨700, rfl, by intro bp hbp; fin_cases hbp <;> with_unfolding_all decide⟩)
  · exact (c6_absent_iff (some 20) PM25_BREAKPOINTS).2 20 [⟨0, 12, 0, 50⟩]
      ⟨12.1, 35.4, 51, 100⟩
      [⟨35.5, 55.4, 101, 150⟩, ⟨55.5, 150.4, 151, 200⟩, ⟨150.5, 250.4, 201, 300⟩,
       ⟨250.5, 350.4, 301, 400⟩, ⟨350.5, 500.4, 401, 500⟩]
      rfl rfl
      (by intro b hb; simp only [List.mem_singleton] at hb; subst hb; with_unfolding_all decide)
      (by with_unfolding_all decide) (by with_unfolding_all decide)

lemma floor_le_pyRound (q : ℚ) : ⌊q⌋ ≤ pyRound q := by
  unfold pyRound; split_ifs <;> omega

lemma pyRound_le_floor_add_one (q : ℚ) : pyRound q ≤ ⌊q⌋ + 1 := by
  unfold pyRound; split_ifs <;> omega

/-- Banker's rounding is monotone. -/
lemma pyRound_mono {q r : ℚ} (h : q ≤ r) : pyRound q ≤ pyRound r := by
  rcases lt_or_eq_of_le (Int.floor_le_floor h) with hf | hf
  · calc pyRound q ≤ ⌊q⌋ + 1 := pyRound_le_floor_add_one q
      _ ≤ ⌊r⌋ := by omega
      _ ≤ pyRound r := floor_le_pyRound r
  · have hq : Int.fract q = q - (⌊q⌋ : ℚ) := rfl
    have hr : Int.fract r = r - (⌊r⌋ : ℚ) := rfl
    have hcast : ((⌊q⌋ : ℤ) : ℚ) = ((⌊r⌋ : ℤ) : ℚ) := by rw [hf]
    have hfr : Int.fract q ≤ Int.fract r := by
      rw [hq, hr, ← hcast]; linarith
    unfold pyRound
    split_ifs <;> first | omega | linarith

/-- The interpolation of `_linear` is monotone in `C` over a tuple with
nonempty concentration range and nondecreasing index range. -/
lemma linear_mono {c1 c2 clow chigh : ℚ} {ilow ihigh : ℤ}
    (hc : clow < chigh) (hi : ilow ≤ ihigh) (h : c1 ≤ c2) :
    linear c1 clow chigh ilow ihigh ≤ linear c2 clow chigh ilow ihigh := by
  apply pyRound_mono
  have hs : (0 : ℚ) ≤ ((ihigh : ℚ) - (ilow : ℚ)) / (chigh - clow) :=
    div_nonneg (by exact_mod_cast sub_nonneg.mpr hi) (le_of_lt (sub_pos.mpr hc))
  have hmul := mul_le_mul_of_nonneg_left (sub_le_sub_right h clow) hs
  linarith

/-- Helper: in a table whose tuples are pairwise separated (each high
strictly below every later low) and well-formed, the index is monotone
between two concentrations lying in the same tuple. -/
lemma firstMatch_mono {bps : List Breakpoint}
    (hsep : bps.Pairwise (fun a b => a.chigh < b.clow))
    (hgood : ∀ b ∈ bps, b.clow < b.chigh ∧ b.ilow ≤ b.ihigh)
    {bp : Breakpoint} (hmem : bp ∈ bps) {c1 c2 : ℚ}
    (h1 : bp.clow ≤ c1) (h12 : c1 ≤ c2) (h2 : c2 ≤ bp.chigh) :
    ∃ i1 i2, firstMatch c1 bps = some i1 ∧ firstMatch c2 bps = some i2 ∧ i1 ≤ i2 := by
  induction bps with
  | nil => cases hmem
  | cons b rest ih =>
    rcases List.mem_cons.mp hmem with rfl | hmem2
    · have hb := hgood bp (List.mem_cons_self bp rest)
      refine ⟨linear c1 bp.clow bp.chigh bp.ilow bp.ihigh,
              linear c2 bp.clow bp.chigh bp.ilow bp.ihigh, ?_, ?_, ?_⟩
      · simp only [firstMatch]; rw [if_pos ⟨h1, le_trans h12 h2⟩]
      · simp only [firstMatch]; rw [if_pos ⟨le_trans h1 h12, h2⟩]
      · exact linear_mono hb.1 hb.2 h12
    · have hlt : b.chigh < bp.clow := (List.pairwise_cons.mp hsep).1 bp hmem2
      have hn1 : ¬ (b.clow ≤ c1 ∧ c1 ≤ b.chigh) := by
        rintro ⟨-, hc⟩; exact absurd (lt_of_lt_of_le hlt h1) (not_lt.mpr hc)
      have hn2 : ¬ (b.clow ≤ c2 ∧ c2 ≤ b.chigh) := by
        rintro ⟨-, hc⟩; exact absurd (lt_of_lt_of_le hlt (le_trans h1 h12)) (not_lt.mpr hc)
      simp only [firstMatch]
      rw [if_neg hn1, if_neg hn2]
      exact ih (List.pairwise_cons.mp hsep).2
        (fun x hx => hgood x (List.mem_cons_of_mem b hx)) hmem2

lemma PM25_sep : PM25_BREAKPOINTS.Pairwise (fun a b => a.chigh < b.clow) := by
  unfold PM25_BREAKPOINTS
  refine List.Pairwise.cons ?_ (List.Pairwise.cons ?_ (List.Pairwise.cons ?_
    (List.Pairwise.cons ?_ (List.Pairwise.cons ?_ (List.Pairwise.cons ?_
      (List.Pairwise.cons ?_ List.Pairwise.nil)))))) <;>
    intro b hb <;> fin_cases hb <;> with_unfolding_all decide

lemma PM10_sep : PM10_BREAKPOINTS.Pairwise (fun a b => a.chigh < b.clow) := by
  unfold PM10_BREAKPOINTS
  refine List.Pairwise.cons ?_ (List.Pairwise.cons ?_ (List.Pairwise.cons ?_
    (List.Pairwise.cons ?_ (List.Pairwise.cons ?_ (List.Pairwise.cons ?_
      (List.Pairwise.cons ?_ List.Pairwise.nil)))))) <;>
    intro b hb <;> fin_cases hb <;> with_unfolding_all decide

lemma PM25_good : ∀ b ∈ PM25_BREAKPOINTS, b.clow < b.chigh ∧ b.ilow ≤ b.ihigh := by
  intro b hb; fin_cases hb <;> constructor <;> with_unfolding_all decide

lemma PM10_good : ∀ b ∈ PM10_BREAKPOINTS, b.clow < b.chigh ∧ b.ilow ≤ b.ihigh := by
  intro b hb; fin_cases hb <;> constructor <;> with_unfolding_all decide

/-- C7: for the concrete PM2.5 and PM10 tables, the computed index is
monotonically non-decreasing between concentrations lying within the same
breakpoint's `[low, high]` range. -/
theorem c7_monotone_within_breakpoint (bp : Breakpoint) (c1 c2 : ℚ) (h12 : c1 ≤ c2) :
    (bp ∈ PM25_BREAKPOINTS → bp.clow ≤ c1 → c2 ≤ bp.chigh →
      ∃ i1 i2, compute_aqi (some c1) PM25_BREAKPOINTS = some i1 ∧
        compute_aqi (some c2) PM25_BREAKPOINTS = some i2 ∧ i1 ≤ i2) ∧
    (bp ∈ PM10_BREAKPOINTS → bp.clow ≤ c1 → c2 ≤ bp.chigh →
      ∃ i1 i2, compute_aqi (some c1) PM10_BREAKPOINTS = some i1 ∧
        compute_aqi (some c2) PM10_BREAKPOINTS = some i2 ∧ i1 ≤ i2) := by
  constructor
  · intro hmem h1 h2
    exact firstMatch_mono PM25_sep PM25_good hmem h1 h12 h2
  · intro hmem h1 h2
    exact firstMatch_mono PM10_sep PM10_good hmem h1 h12 h2

/-- Witness for C7: concentrations 3 and 7 both lie in the first PM2.5
breakpoint `(0, 12)`. -/
theorem c7_monotone_within_breakpoint_witness :
    ∃ i1 i2, compute_aqi (some 3) PM25_BREAKPOINTS = some i1 ∧
      compute_aqi (some 7) PM25_BREAKPOINTS = some i2 ∧ i1 ≤ i2 :=
  (c7_monotone_within_breakpoint ⟨0, 12, 0, 50⟩ 3 7 (by with_unfolding_all decide)).1
    (by with_unfolding_all decide) (by with_unfolding_all decide)
    (by with_unfolding_all decide)

/-! ## Place-name cleanup (`fetch_india_aqi.py`, `clean_city_name`)

Python strings are modelled as `List Char`; `str.strip`, `str.replace`,
`str.split`, `str.title`, `str.isdigit` are embedded below (ASCII case
mapping, which coincides with Python on the ASCII inputs the adapter
handles). -/

/-- Python `str.startswith` on char lists (pattern first). -/
def startsWith : List Char → List Char → Bool
  | [], _ => true
  | _ :: _, [] => false
  | p :: ps, c :: cs => p == c && startsWith ps cs

/-- Fuel-indexed worker for `pyReplace`; the fuel is the input length, so
exhaustion is unreachable. -/
def pyReplaceFuel (pat rep : List Char) : Nat → List Char → List Char
  | 0, l => l
  | fuel + 1, l =>
    match l with
    | [] => []
    | c :: cs =>
      if !pat.isEmpty && startsWith pat (c :: cs) then
        rep ++ pyReplaceFuel pat rep fuel (List.drop pat.length (c :: cs))
      else c :: pyReplaceFuel pat rep fuel cs

/-- Python `str.replace(pat, rep)`: left-to-right, non-overlapping. -/
def pyReplace (pat rep l : List Char) : List Char :=
  pyReplaceFuel pat rep l.length l

/-- Python `str.strip()`: drop leading and trailing whitespace. -/
def pyStrip (l : List Char) : List Char :=
  ((l.dropWhile Char.isWhitespace).reverse.dropWhile Char.isWhitespace).reverse

/-- Python `str.split(",")`: split at every comma, keeping empty pieces. -/
def splitOnComma : List Char → List (List Char)
  | [] => [[]]
  | c :: cs =>
    if c == ',' then [] :: splitOnComma cs
    else
      match splitOnComma cs with
      | [] => [[c]]
      | p :: ps => (c :: p) :: ps

/-- Python `s.split("(")[0]`: the piece before the first opening paren. -/
def takeBeforeParen (l : List Char) : List Char :=
  l.takeWhile (fun c => c != '(')

/-- Python `any(ch.isdigit() for ch in s)`. -/
def hasDigit (l : List Char) : Bool := l.any Char.isDigit

def lowerChars : List Char := "abcdefghijklmnopqrstuvwxyz".toList

def upperChars : List Char := "ABCDEFGHIJKLMNOPQRSTUVWXYZ".toList

/-- ASCII uppercase map used by the `str.title` embedding. -/
def asciiUpper (c : Char) : Char :=
  match (lowerChars.zip upperChars).find? (fun p => p.1 == c) with
  | some p => p.2
  | none => c

/-- ASCII lowercase map used by the `str.title` embedding. -/
def asciiLower (c : Char) : Char :=
  match (upperChars.zip lowerChars).find? (fun p => p.1 == c) with
  | some p => p.2
  | none => c

def isAsciiAlpha (c : Char) : Bool := lowerChars.contains c || upperChars.contains c

/-- Python `str.title` worker: uppercase a letter that does not follow a
letter, lowercase one that does. -/
def pyTitleAux : Bool → List Char → List Char
  | _, [] => []
  | prevAlpha, c :: cs =>
    (if prevAlpha then asciiLower c else asciiUpper c) :: pyTitleAux (isAsciiAlpha c) cs

/-- Python `str.title()`. -/
def pyTitle (l : List Char) : List Char := pyTitleAux false l

def indiaChars : List Char := "India".toList

def inCodeChars : List Char := "IN".toList

def spaceCommaChars : List Char := " ,".toList

def commaChars : List Char := ",".toList

/-- Lines 32-35 of `fetch_india_aqi.py`:
`raw.strip().replace(" ,", ",")`, then `split("(")[0].strip()`, then
`.replace("India", "").replace("IN", "").strip()`. -/
def cityNorm (s : List Char) : List Char :=
  pyStrip (pyReplace inCodeChars [] (pyReplace indiaChars []
    (pyStrip (takeBeforeParen (pyReplace spaceCommaChars commaChars (pyStrip s))))))

/-- Lines 38-44: when the name still holds a digit, keep the first
stripped comma-segment that is non-empty and digit-free (`parts[0]`),
`None` when there is none. -/
def digitFallback (city : List Char) : Option (List Char) :=
  (((splitOnComma city).filter (fun p => !p.isEmpty && !hasDigit p)).map pyStrip).head?

/-- Lines 46-49: reject names shorter than 2 characters, then title-case. -/
def lenCheck (city : List Char) : Option (List Char) :=
  if city.length < 2 then none else some (pyTitle city)

/-- The string-processing body of `clean_city_name` (lines 32-49). -/
def cleanCore (s : List Char) : Option (List Char) :=
  match (if hasDigit (cityNorm s) then digitFallback (cityNorm s) else some (cityNorm s)) with
  | none => none
  | some city2 => lenCheck city2

/-- The possible shapes of the `raw` argument of `clean_city_name`
(lines 14-30): a string, a dict with optional `name`/`station` keys
(`none` = key absent or `None`; `some []` = empty string), Python
`None`, or any other object (`falsy` records Python truthiness of the
object, `objStr` its `str()` rendering). -/
inductive RawCity
  | str (v : List Char)
  | dict (name station : Option (List Char))
  | absent
  | other (falsy : Bool) (objStr : List Char)
deriving DecidableEq

/-- `raw.get("name") or raw.get("station") or ""` (line 23). -/
def dictStation : Option (List Char) → List Char
  | some v => if v.isEmpty then [] else v
  | none => []

def dictVal (nm st : Option (List Char)) : List Char :=
  match nm with
  | some v => if v.isEmpty then dictStation st else v
  | none => dictStation st

/-- Embedding of `clean_city_name` (`fetch_india_aqi.py` lines 14-49). -/
def cleanCityName (raw : RawCity) : Option (List Char) :=
  match raw with
  | .str v => if v.isEmpty then none else cleanCore v
  | .dict nm st =>
    let v := dictVal nm st
    if v.isEmpty then none else cleanCore v
  | .absent => none
  | .other falsy objStr => if falsy then none else cleanCore objStr

lemma mem_pyStrip {c : Char} {l : List Char} (h : c ∈ pyStrip l) : c ∈ l := by
  unfold pyStrip at h
  rw [List.mem_reverse] at h
  have h2 := (List.dropWhile_sublist Char.isWhitespace).mem h
  rw [List.mem_reverse] at h2
  exact (List.dropWhile_sublist Char.isWhitespace).mem h2

lemma hasDigit_pyStrip {l : List Char} (h : hasDigit l = false) :
    hasDigit (pyStrip l) = false := by
  rw [hasDigit, List.any_eq_false] at h ⊢
  intro c hc
  exact h c (mem_pyStrip hc)

lemma upperChars_no_digit : ∀ u ∈ upperChars, u.isDigit = false := by decide

lemma lowerChars_no_digit : ∀ u ∈ lowerChars, u.isDigit = false := by decide

lemma asciiUpper_not_digit {c : Char} (h : c.isDigit = false) :
    (asciiUpper c).isDigit = false := by
  unfold asciiUpper
  rcases hf : (lowerChars.zip upperChars).find? (fun p => p.1 == c) with _ | p
  · simp only [hf]; exact h
  · simp only [hf]
    exact upperChars_no_digit p.2 (List.of_mem_zip (List.mem_of_find?_eq_some hf)).2

lemma asciiLower_not_digit {c : Char} (h : c.isDigit = false) :
    (asciiLower c).isDigit = false := by
  unfold asciiLower
  rcases hf : (upperChars.zip lowerChars).find? (fun p => p.1 == c) with _ | p
  · simp only [hf]; exact h
  · simp only [hf]
    exact lowerChars_no_digit p.2 (List.of_mem_zip (List.mem_of_find?_eq_some hf)).2

lemma pyTitleAux_length (b : Bool) (l : List Char) :
    (pyTitleAux b l).length = l.length := by
  induction l generalizing b with
  | nil => rfl
  | cons c cs ih => simp [pyTitleAux, ih]

lemma pyTitleAux_no_digit (b : Bool) {l : List Char} (h : hasDigit l = false) :
    hasDigit (pyTitleAux b l) = false := by
  induction l generalizing b with
  | nil => rfl
  | cons c cs ih =>
    rw [hasDigit, List.any_eq_false] at h
    have hc : c.isDigit = false :=
      Bool.eq_false_iff.mpr (h c (List.mem_cons_self c cs))
    have hcs : hasDigit cs = false := by
      rw [hasDigit, List.any_eq_false]
      exact fun x hx => h x (List.mem_cons_of_mem c hx)
    have htail := ih (isAsciiAlpha c) hcs
    rw [pyTitleAux, hasDigit, List.any_cons, Bool.or_eq_false_iff]
    refine ⟨?_, htail⟩
    rcases b with _ | _
    · exact asciiUpper_not_digit hc
    · exact asciiLower_not_digit hc

lemma lenCheck_shape {city : List Char} (h : hasDigit city = false) :
    lenCheck city = none ∨
      ∃ t, lenCheck city = some t ∧ 2 ≤ t.length ∧ hasDigit t = false := by
  unfold lenCheck
  by_cases hl : city.length < 2
  · exact Or.inl (if_pos hl)
  · refine Or.inr ⟨pyTitle city, if_neg hl, ?_, pyTitleAux_no_digit false h⟩
    rw [pyTitle, pyTitleAux_length]
    omega

lemma digitFallback_no_digit {city p : List Char}
    (h : digitFallback city = some p) : hasDigit p = false := by
  unfold digitFallback at h
  have hp := List.mem_of_mem_head? (by rw [h]; exact rfl)
  rcases List.mem_map.mp hp with ⟨p0, hp0, rfl⟩
  have := (List.mem_filter.mp hp0).2
  simp only [Bool.and_eq_true, Bool.not_eq_true'] at this
  exact hasDigit_pyStrip this.2

lemma cleanCore_shape (s : List Char) :
    cleanCore s = none ∨
      ∃ t, cleanCore s = some t ∧ 2 ≤ t.length ∧ hasDigit t = false := by
  unfold cleanCore
  by_cases hd : hasDigit (cityNorm s)
  · rw [if_pos hd]
    rcases hf : digitFallback (cityNorm s) with _ | p
    · exact Or.inl rfl
    · exact lenCheck_shape (digitFallback_no_digit hf)
  · rw [if_neg hd]
    exact lenCheck_shape (Bool.eq_false_iff.mpr hd)

/-- C10: for every input shape (string, dict, other object, or absent),
`clean_city_name` returns either `None` or a string of length at least 2
containing no digit characters. -/
theorem c10_clean_city_name_shape (raw : RawCity) :
    cleanCityName raw = none ∨
      ∃ t, cleanCityName raw = some t ∧ 2 ≤ t.length ∧ hasDigit t = false := by
  rcases raw with v | ⟨nm, st⟩ | _ | ⟨falsy, objStr⟩
  · rw [cleanCityName]
    by_cases hv : v.isEmpty
    · exact Or.inl (if_pos hv)
    · rw [if_neg hv]; exact cleanCore_shape v
  · rw [cleanCityName]
    by_cases hv : (dictVal nm st).isEmpty
    · exact Or.inl (if_pos hv)
    · rw [if_neg hv]; exact cleanCore_shape (dictVal nm st)
  · exact Or.inl rfl
  · rw [cleanCityName]
    rcases falsy with _ | _
    · rw [if_neg (by simp)]; exact cleanCore_shape objStr
    · exact Or.inl (if_pos rfl)

/-- C8 counterexample: the claim says `clean_city_name("Delhi123, IN")`
is `"Delhi"`; the code returns `None` — after `"IN"` is stripped the
string is `"Delhi123,"`, whose comma-split has no non-empty digit-free
segment. -/
theorem c8_counterexample :
    cleanCityName (.str ("Delhi123, IN".toList)) = none := by decide

/-- C8 (amended): `clean_city_name` maps `"Delhi123, IN"` to `None` (the
digit fallback finds no non-empty digit-free comma segment) and maps
`"  new delhi (ncr)  "` to `"New Delhi"` (trimming, parenthetical
stripping, title-casing). -/
theorem c8_name_cleanup :
    cleanCityName (.str ("Delhi123, IN".toList)) = none ∧
    cleanCityName (.str ("  new delhi (ncr)  ".toList)) = some ("New Delhi".toList) := by
  constructor <;> decide

/-! ## Upsert reconciler (`fetch_aqi.py` / `fetch_india_aqi.py`, `models.py`)

The persisted store is modelled as an in-memory list of rows; Django's
`update_or_create` / `get_or_create` primitives are embedded with their
documented semantics (find by the keyword filter; on a hit update with /
ignore the `defaults`, on a miss create a row from key plus `defaults`).
Station and timestamp foreign keys are modelled as opaque `Nat` ids, raw
JSON payloads as opaque `String`s. -/

/-- The non-key columns of `AQIReading` (`models.py` lines 64-80), i.e.
exactly the `defaults` dict passed to `update_or_create` in
`fetch_aqi.py` lines 40-55. -/
structure ReadingVals where
  city : Nat
  aqi : Option ℤ
  pm25 : Option ℚ
  pm10 : Option ℚ
  no2 : Option ℚ
  so2 : Option ℚ
  o3 : Option ℚ
  co : Option ℚ
  nh3 : Option ℚ
  raw_data : String
deriving DecidableEq

/-- A persisted `AQIReading` row: the natural key `(station, timestamp)`
(`unique_together` in `models.py` lines 82-83) plus the value columns. -/
structure ReadingRow where
  station : Nat
  timestamp : Nat
  vals : ReadingVals
deriving DecidableEq

/-- Row matching the `update_or_create(station=..., timestamp=...)`
keyword filter. -/
def readingKeyMatch (station ts : Nat) (r : ReadingRow) : Bool :=
  r.station == station && r.timestamp == ts

/-- Django `AQIReading.objects.update_or_create(station=, timestamp=,
defaults=...)` (`fetch_aqi.py` lines 40-55): update every column of the
matching row from `defaults`, or insert a fresh row; the returned flag is
`true` when a row was created. -/
def updateOrCreateReading (db : List ReadingRow) (station ts : Nat)
    (defaults : ReadingVals) : List ReadingRow × Bool :=
  if db.any (readingKeyMatch station ts) then
    (db.map (fun r => if readingKeyMatch station ts r then
      { r with vals := defaults } else r), false)
  else
    (db ++ [⟨station, ts, defaults⟩], true)

/-- Number of rows with the given `(station, timestamp)` key. -/
def readingKeyCount (db : List ReadingRow) (station ts : Nat) : Nat :=
  db.countP (readingKeyMatch station ts)

/-- The `unique_together ("station", "timestamp")` invariant: no two rows
share a key. -/
def ReadingKeysUnique (db : List ReadingRow) : Prop :=
  db.Pairwise (fun a b => ¬ (a.station = b.station ∧ a.timestamp = b.timestamp))

lemma readingKeyMatch_iff {station ts : Nat} {r : ReadingRow} :
    readingKeyMatch station ts r = true ↔ r.station = station ∧ r.timestamp = ts := by
  simp [readingKeyMatch]

lemma countP_key_eq_one {db : List ReadingRow} {station ts : Nat}
    (huniq : ReadingKeysUnique db) (hex : db.any (readingKeyMatch station ts) = true) :
    db.countP (readingKeyMatch station ts) = 1 := by
  induction db with
  | nil => simp at hex
  | cons r rest ih =>
    rw [ReadingKeysUnique, List.pairwise_cons] at huniq
    by_cases hr : readingKeyMatch station ts r = true
    · have hrest : rest.countP (readingKeyMatch station ts) = 0 := by
        rw [List.countP_eq_zero]
        intro b hb hbmatch
        have h1 := readingKeyMatch_iff.mp hr
        have h2 := readingKeyMatch_iff.mp hbmatch
        exact huniq.1 b hb ⟨h1.1.trans h2.1.symm, h1.2.trans h2.2.symm⟩
      rw [List.countP_cons_of_pos _ _ hr, hrest]
    · have hex2 : rest.any (readingKeyMatch station ts) = true := by
        rcases List.any_eq_true.mp hex with ⟨x, hx, hmx⟩
        rcases List.mem_cons.mp hx with rfl | hx2
        · exact absurd hmx hr
        · exact List.any_eq_true.mpr ⟨x, hx2, hmx⟩
      rw [List.countP_cons_of_neg _ _ hr]
      exact ih huniq.2 hex2

/-- The overwrite map of `update_or_create` keeps the key columns. -/
lemma readingKeyMatch_overwrite (station ts : Nat) (d : ReadingVals) (r : ReadingRow) :
    readingKeyMatch station ts
      (if readingKeyMatch station ts r then { r with vals := d } else r) =
    readingKeyMatch station ts r := by
  by_cases hr : readingKeyMatch station ts r = true
  · rw [if_pos hr, hr]
    rcases readingKeyMatch_iff.mp hr with ⟨h1, h2⟩
    exact readingKeyMatch_iff.mpr ⟨h1, h2⟩
  · rw [if_neg hr]

/-- One `update_or_create` call on a store satisfying the uniqueness
invariant: exactly one row with the key remains, every row with the key
holds the new `defaults`, and the invariant is preserved. -/
lemma upsertReading_step (db : List ReadingRow) (station ts : Nat) (d : ReadingVals)
    (huniq : ReadingKeysUnique db) :
    readingKeyCount (updateOrCreateReading db station ts d).1 station ts = 1 ∧
    (∀ r ∈ (updateOrCreateReading db station ts d).1,
        readingKeyMatch station ts r = true → r = ⟨station, ts, d⟩) ∧
    ReadingKeysUnique (updateOrCreateReading db station ts d).1 := by
  unfold updateOrCreateReading
  have hkey : ∀ r : ReadingRow,
      (if readingKeyMatch station ts r then { r with vals := d } else r).station = r.station ∧
      (if readingKeyMatch station ts r then { r with vals := d } else r).timestamp = r.timestamp := by
    intro r
    by_cases hr : readingKeyMatch station ts r = true
    · rw [if_pos hr]; exact ⟨rfl, rfl⟩
    · rw [if_neg hr]; exact ⟨rfl, rfl⟩
  by_cases hany : db.any (readingKeyMatch station ts) = true
  · rw [if_pos hany]
    refine ⟨?_, ?_, ?_⟩
    · rw [readingKeyCount, List.countP_map]
      calc db.countP
            ((readingKeyMatch station ts) ∘
              (fun r => if readingKeyMatch station ts r then { r with vals := d } else r))
          = db.countP (readingKeyMatch station ts) :=
            List.countP_congr (fun r _ => by
              simp only [Function.comp_apply, readingKeyMatch_overwrite])
        _ = 1 := countP_key_eq_one huniq hany
    · intro r hr hmatch
      rcases List.mem_map.mp hr with ⟨r0, hr0, rfl⟩
      by_cases h0 : readingKeyMatch station ts r0 = true
      · rw [if_pos h0] at hmatch ⊢
        rcases readingKeyMatch_iff.mp h0 with ⟨h1, h2⟩
        cases r0
        simp only at h1 h2
        subst h1; subst h2
        rfl
      · rw [if_neg h0] at hmatch
        exact absurd hmatch h0
    · rw [ReadingKeysUnique, List.pairwise_map]
      refine huniq.imp ?_
      intro a b hab hc
      rw [(hkey a).1, (hkey b).1, (hkey a).2, (hkey b).2] at hc
      exact hab hc
  · rw [if_neg hany]
    have hnone : ∀ r ∈ db, readingKeyMatch station ts r = false := by
      intro r hr
      rcases hx : readingKeyMatch station ts r with _ | _
      · rfl
      · exact absurd (List.any_eq_true.mpr ⟨r, hr, hx⟩) hany
    refine ⟨?_, ?_, ?_⟩
    · rw [readingKeyCount, List.countP_append]
      have h0 : db.countP (readingKeyMatch station ts) = 0 :=
        List.countP_eq_zero.mpr (fun a ha => by rw [hnone a ha]; exact Bool.false_ne_true)
      rw [h0]
      simp [List.countP_cons, readingKeyMatch]
    · intro r hr hmatch
      rcases List.mem_append.mp hr with hin | hnew
      · rw [hnone r hin] at hmatch
        exact absurd hmatch Bool.false_ne_true
      · simpa using hnew
    · rw [ReadingKeysUnique, List.pairwise_append]
      refine ⟨huniq, List.pairwise_singleton _ _, ?_⟩
      intro a ha b hb hcontra
      have hbnew : b = (⟨station, ts, d⟩ : ReadingRow) := by simpa using hb
      subst hbnew
      have hmatch : readingKeyMatch station ts a = true :=
        readingKeyMatch_iff.mpr ⟨hcontra.1, hcontra.2⟩
      rw [hnone a ha] at hmatch
      exact Bool.false_ne_true hmatch

/-- C3: upserting a reading for the same `(station, timestamp)` key twice
with different values leaves exactly one row for that key, holding the
later values (all measurement fields and the raw payload overwritten). -/
theorem c3_reading_upsert_idempotent (db : List ReadingRow) (station ts : Nat)
    (d1 d2 : ReadingVals) (huniq : ReadingKeysUnique db) :
    readingKeyCount
        (updateOrCreateReading (updateOrCreateReading db station ts d1).1 station ts d2).1
        station ts = 1 ∧
    ∀ r ∈ (updateOrCreateReading (updateOrCreateReading db station ts d1).1 station ts d2).1,
        readingKeyMatch station ts r = true → r = ⟨station, ts, d2⟩ := by
  have h1 := upsertReading_step db station ts d1 huniq
  have h2 := upsertReading_step (updateOrCreateReading db station ts d1).1 station ts d2 h1.2.2
  exact ⟨h2.1, h2.2.1⟩

/-- Witness for C3: two upserts on the empty store with different values
leave exactly one row. -/
theorem c3_reading_upsert_idempotent_witness :
    readingKeyCount
        (updateOrCreateReading
          (updateOrCreateReading [] 1 10
            ⟨7, some 100, some 12, some 30, none, none, none, none, none, "raw1"⟩).1
          1 10 ⟨7, some 150, some 40, some 80, none, none, none, none, none, "raw2"⟩).1
        1 10 = 1 :=
  (c3_reading_upsert_idempotent [] 1 10
    ⟨7, some 100, some 12, some 30, none, none, none, none, none, "raw1"⟩
    ⟨7, some 150, some 40, some 80, none, none, none, none, none, "raw2"⟩
    List.Pairwise.nil).1

/-- A persisted `Station` row (`models.py` lines 36-52): natural key
`code`, city foreign key (opaque id), display name, optional coordinates,
`data_source` tag, `is_active` flag. -/
structure StationRow where
  code : String
  city : Nat
  name : String
  latitude : Option ℚ
  longitude : Option ℚ
  data_source : String
  is_active : Bool
deriving DecidableEq

/-- The `defaults` dict of `Station.objects.get_or_create`
(`fetch_aqi.py` lines 29-38 / `fetch_india_aqi.py` lines 132-141). -/
structure StationDefaults where
  city : Nat
  name : String
  latitude : Option ℚ
  longitude : Option ℚ
  data_source : String
deriving DecidableEq

/-- Django `Station.objects.get_or_create(code=..., defaults=...)`: when a
row with the code exists it is returned and the store is untouched (the
`defaults` are ignored); otherwise a row is created from the code and the
`defaults` (with `is_active` at its model default `True`).  Callers pass
the derived, length-50-truncated station code. -/
def getOrCreateStation (db : List StationRow) (code : String)
    (defaults : StationDefaults) : StationRow × List StationRow × Bool :=
  match db.find? (fun r => r.code == code) with
  | some r => (r, db, false)
  | none =>
    let r : StationRow :=
      ⟨code, defaults.city, defaults.name, defaults.latitude, defaults.longitude,
       defaults.data_source, true⟩
    (r, db ++ [r], true)

/-- C9: reconciling a canonical record whose derived code already names an
existing Station leaves the persisted store unchanged — in particular the
matching Station's coordinates, name, city and data_source keep their
stored values; the `defaults` of the later fetch are never applied. -/
theorem c9_station_frame (db : List StationRow) (code : String) (d : StationDefaults)
    (hex : ∃ r ∈ db, r.code = code) :
    (getOrCreateStation db code d).2.1 = db := by
  unfold getOrCreateStation
  rcases hf : db.find? (fun r => r.code == code) with _ | r
  · rcases hex with ⟨r, hr, hrc⟩
    have hnone := List.find?_eq_none.mp hf r hr
    simp [hrc] at hnone
  · simp only [hf]

/-- Witness for C9: a second fetch with different defaults does not touch
the stored Delhi station. -/
theorem c9_station_frame_witness :
    (getOrCreateStation
      [⟨"Delhi_28.613_77.209", 1, "Delhi Station", some 28, some 77, "WAQI", true⟩]
      "Delhi_28.613_77.209" ⟨2, "Other Station", some 1, some 2, "OpenAQ"⟩).2.1 =
    [⟨"Delhi_28.613_77.209", 1, "Delhi Station", some 28, some 77, "WAQI", true⟩] :=
  c9_station_frame _ _ _
    ⟨⟨"Delhi_28.613_77.209", 1, "Delhi Station", some 28, some 77, "WAQI", true⟩,
     by constructor
        · exact List.mem_singleton_self _
        · rfl⟩

/-! ## Recommendation engine (`utils/product_recommender.py`)

Catalog rows are modelled as a list of `Product` records; the Django
querysets `filter` / `exclude` / `order_by('-effectiveness', '-rating')`
become list filtering and a sort by the descending (effectiveness,
rating) key.  The `rating` column (nullable float) is modelled as a total
`ℚ`.  The embedding covers the default call path `user_conditions=None`,
under which `_boost_for_conditions` is skipped. -/

/-- A catalog `Product` row (`models.py` lines 235-262, the fields the
recommender reads). -/
structure Product where
  id : Nat
  product_type : String
  aqi_min : ℤ
  aqi_max : ℤ
  effectiveness : ℤ
  rating : ℚ
deriving DecidableEq

/-- `get_aqi_category` (`product_recommender.py` lines 37-58). -/
def get_aqi_category (aqi : ℤ) : String :=
  if aqi ≤ 50 then "good"
  else if aqi ≤ 100 then "moderate"
  else if aqi ≤ 150 then "unhealthy_sensitive"
  else if aqi ≤ 200 then "unhealthy"
  else if aqi ≤ 300 then "very_unhealthy"
  else "hazardous"

/-- `PRODUCT_PRIORITIES.get(category, [])` (lines 25-32, 100). -/
def PRODUCT_PRIORITIES (category : String) : List String :=
  if category = "good" then ["plant", "monitor"]
  else if category = "moderate" then ["mask", "plant", "monitor"]
  else if category = "unhealthy_sensitive" then
    ["mask", "purifier", "room_purifier", "monitor"]
  else if category = "unhealthy" then
    ["mask", "purifier", "room_purifier", "monitor", "car-filter"]
  else if category = "very_unhealthy" then
    ["purifier", "room_purifier", "mask", "monitor", "car-filter"]
  else if category = "hazardous" then
    ["purifier", "room_purifier", "mask", "monitor", "car-filter", "plant"]
  else []

/-- The `order_by('-effectiveness', '-rating')` key order: `p` sorts no
later than `q` when `p` beats `q` on effectiveness, or ties and is at
least as highly rated. -/
@[reducible] def effGE (p q : Product) : Prop :=
  q.effectiveness < p.effectiveness ∨
    (q.effectiveness = p.effectiveness ∧ q.rating ≤ p.rating)

instance : DecidableRel effGE := fun p q =>
  inferInstanceAs (Decidable (q.effectiveness < p.effectiveness ∨
    (q.effectiveness = p.effectiveness ∧ q.rating ≤ p.rating)))

instance : IsTotal Product effGE :=
  ⟨by
    intro p q
    rcases lt_trichotomy q.effectiveness p.effectiveness with h | h | h
    · exact Or.inl (Or.inl h)
    · rcases le_total q.rating p.rating with hr | hr
      · exact Or.inl (Or.inr ⟨h, hr⟩)
      · exact Or.inr (Or.inr ⟨h.symm, hr⟩)
    · exact Or.inr (Or.inl h)⟩

instance : IsTrans Product effGE :=
  ⟨by
    intro a b c hab hbc
    rcases hab with h1 | ⟨h1, h2⟩ <;> rcases hbc with h3 | ⟨h3, h4⟩
    · exact Or.inl (lt_trans h3 h1)
    · exact Or.inl (by omega)
    · exact Or.inl (by omega)
    · exact Or.inr ⟨h3.trans h1, le_trans h4 h2⟩⟩

/-- `order_by('-effectiveness', '-rating')` on a candidate list. -/
def orderByEffRating (l : List Product) : List Product :=
  List.insertionSort effGE l

/-- The base queryset (lines 86-97): products whose `[aqi_min, aqi_max]`
range contains `aqi`, intersected with the optional category filter; when
that is empty, the broadened query `aqi_min ≤ aqi + 50` on the whole
catalog. -/
def candidateQuery (catalog : List Product) (aqi : ℤ) (category : Option String) :
    List Product :=
  let base := catalog.filter fun p =>
    decide (p.aqi_min ≤ aqi) && decide (aqi ≤ p.aqi_max) &&
      (match category with
       | none => true
       | some c => decide (p.product_type = c))
  if base.isEmpty then catalog.filter (fun p => decide (p.aqi_min ≤ aqi + 50)) else base

/-- Lines 102-112: one sorted chunk per priority type, in priority order,
then the sorted products of the remaining types. -/
def orderedCandidates (types : List String) (products : List Product) : List Product :=
  (types.map (fun t =>
    orderByEffRating (products.filter (fun p => decide (p.product_type = t))))).flatten
    ++ orderByEffRating (products.filter (fun p => decide (p.product_type ∉ types)))

/-- Lines 114-120: drop rows whose `id` was already seen, keeping order. -/
def dedupById (seen : List Nat) : List Product → List Product
  | [] => []
  | p :: ps =>
    if p.id ∈ seen then dedupById seen ps
    else p :: dedupById (p.id :: seen) ps

/-- Embedding of `ProductRecommender.get_recommendations` (lines 60-129)
on the default path `user_conditions=None`. -/
def get_recommendations (catalog : List Product) (aqi : ℤ) (category : Option String)
    (max_results : Nat) : List Product :=
  (dedupById [] (orderedCandidates (PRODUCT_PRIORITIES (get_aqi_category aqi))
    (candidateQuery catalog aqi category))).take max_results

/-- Position of a product type in a priority list; length when absent. -/
def rankOf : List String → String → Nat
  | [], _ => 0
  | t :: ts, ty => if ty = t then 0 else rankOf ts ty + 1

/-- Rank of a product type for the band of the given index value. -/
def bandRank (aqi : ℤ) (ty : String) : Nat :=
  rankOf (PRODUCT_PRIORITIES (get_aqi_category aqi)) ty

/-- The ordering the spec claims: band priority of the type first, then
effectiveness descending, then rating descending; types outside the
priority list (all of rank `length`) come last. -/
def priorityOrder (aqi : ℤ) (p q : Product) : Prop :=
  bandRank aqi p.product_type < bandRank aqi q.product_type ∨
    (bandRank aqi p.product_type = bandRank aqi q.product_type ∧ effGE p q)

lemma rankOf_lt_length {types : List String} {t : String} (h : t ∈ types) :
    rankOf types t < types.length := by
  induction types with
  | nil => cases h
  | cons a as ih =>
    rw [rankOf]
    by_cases hta : t = a
    · rw [if_pos hta]
      simp
    · rw [if_neg hta]
      rcases List.mem_cons.mp h with h1 | h2
      · exact absurd h1 hta
      · simpa using Nat.succ_lt_succ (ih h2)

lemma rankOf_eq_length {types : List String} {t : String} (h : t ∉ types) :
    rankOf types t = types.length := by
  induction types with
  | nil => rfl
  | cons a as ih =>
    rw [rankOf]
    rw [if_neg (fun hta => h (by rw [hta]; exact List.mem_cons_self a as))]
    rw [ih (fun h2 => h (List.mem_cons_of_mem a h2))]
    rfl

lemma mem_orderByEffRating {p : Product} {l : List Product} :
    p ∈ orderByEffRating l ↔ p ∈ l :=
  (List.perm_insertionSort effGE l).mem_iff

/-- Every priority list returned by `PRODUCT_PRIORITIES` lists types at
strictly increasing rank (no duplicates). -/
lemma priorities_rank_increasing (category : String) :
    (PRODUCT_PRIORITIES category).Pairwise
      (fun t1 t2 => rankOf (PRODUCT_PRIORITIES category) t1 <
        rankOf (PRODUCT_PRIORITIES category) t2) := by
  unfold PRODUCT_PRIORITIES
  split_ifs <;> decide

lemma orderedCandidates_pairwise (types : List String)
    (hr : types.Pairwise (fun t1 t2 => rankOf types t1 < rankOf types t2))
    (products : List Product) :
    (orderedCandidates types products).Pairwise
      (fun p q => rankOf types p.product_type < rankOf types q.product_type ∨
        (rankOf types p.product_type = rankOf types q.product_type ∧ effGE p q)) := by
  have type_of_chunk : ∀ (t : String) (x : Product),
      x ∈ orderByEffRating (products.filter (fun p => decide (p.product_type = t))) →
      x.product_type = t := by
    intro t x hx
    exact of_decide_eq_true (List.mem_filter.mp (mem_orderByEffRating.mp hx)).2
  have not_mem_of_rest : ∀ x : Product,
      x ∈ orderByEffRating (products.filter (fun p => decide (p.product_type ∉ types))) →
      x.product_type ∉ types := by
    intro x hx
    exact of_decide_eq_true (List.mem_filter.mp (mem_orderByEffRating.mp hx)).2
  unfold orderedCandidates
  rw [List.pairwise_append]
  refine ⟨?_, ?_, ?_⟩
  · rw [List.pairwise_flatten]
    constructor
    · intro chunk hchunk
      rcases List.mem_map.mp hchunk with ⟨t, ht, rfl⟩
      refine (List.sorted_insertionSort effGE _).imp_of_mem ?_
      intro a b ha hb hge
      exact Or.inr ⟨by rw [type_of_chunk t a ha, type_of_chunk t b hb], hge⟩
    · rw [List.pairwise_map]
      refine hr.imp_of_mem ?_
      intro t1 t2 ht1 ht2 hlt x hx y hy
      exact Or.inl (by rw [type_of_chunk t1 x hx, type_of_chunk t2 y hy]; exact hlt)
  · refine (List.sorted_insertionSort effGE _).imp_of_mem ?_
    intro a b ha hb hge
    exact Or.inr ⟨by rw [rankOf_eq_length (not_mem_of_rest a ha),
      rankOf_eq_length (not_mem_of_rest b hb)], hge⟩
  · intro x hx y hy
    rcases List.mem_flatten.mp hx with ⟨chunk, hchunk, hxc⟩
    rcases List.mem_map.mp hchunk with ⟨t, ht, rfl⟩
    refine Or.inl ?_
    rw [type_of_chunk t x hxc, rankOf_eq_length (not_mem_of_rest y hy)]
    exact rankOf_lt_length ht

lemma dedupById_sublist (seen : List Nat) (l : List Product) :
    (dedupById seen l).Sublist l := by
  induction l generalizing seen with
  | nil => exact List.Sublist.refl []
  | cons p ps ih =>
    rw [dedupById]
    by_cases hp : p.id ∈ seen
    · rw [if_pos hp]
      exact (ih seen).cons p
    · rw [if_neg hp]
      exact (ih (p.id :: seen)).cons₂ p

/-- C4: `get_recommendations` orders its output by the band-specific
priority list of product types, with effectiveness-descending then
rating-descending order inside a type, and types outside the priority
list (of maximal rank) last in the same secondary order; at index 250
(Very-Unhealthy band) a purifier with effectiveness 90 ranks before a
mask with effectiveness 95. -/
theorem c4_priority_ordering :
    (∀ (catalog : List Product) (aqi : ℤ) (category : Option String) (maxr : Nat),
      (get_recommendations catalog aqi category maxr).Pairwise (priorityOrder aqi)) ∧
    get_recommendations
        [⟨1, "purifier", 0, 500, 90, 4⟩, ⟨2, "mask", 0, 500, 95, 5⟩] 250 none 50 =
      [⟨1, "purifier", 0, 500, 90, 4⟩, ⟨2, "mask", 0, 500, 95, 5⟩] := by
  constructor
  · intro catalog aqi category maxr
    refine List.Pairwise.sublist (List.take_sublist _ _) ?_
    refine List.Pairwise.sublist (dedupById_sublist _ _) ?_
    exact orderedCandidates_pairwise (PRODUCT_PRIORITIES (get_aqi_category aqi))
      (priorities_rank_increasing (get_aqi_category aqi))
      (candidateQuery catalog aqi category)
  · set_option maxRecDepth 40000 in with_unfolding_all decide

/-! ## Source adapters' failure boundary
(`services/waqi_fetcher.py`, `services/live_aqi_fetcher.py`,
`management/commands/fetch_india_aqi.py`)

The single upstream HTTP call of each adapter is modelled by an `Outcome`
value: a timeout (the `requests` call raises) or a response carrying a
status code and a body, which itself is either unparsable JSON or a
parsed payload.  A Python exception crossing the adapter boundary is an
`Except.error`. -/

/-- What the `requests.get(..., timeout=...)` call produced. -/
inductive Outcome (β : Type)
  | timeout
  | response (statusCode : Nat) (body : β)
deriving DecidableEq

/-- The exceptions that can cross the adapter boundary. -/
inductive FetchErr
  | timeout
  | httpError (code : Nat)
  | jsonError
  | apiError
deriving DecidableEq

/-- One entry of the WAQI map/bounds `data` list, restricted to the
fields the two WAQI adapters read.  `station`/`city` may be a string or
an object (the same shapes `clean_city_name` accepts); `aqi` holds the
result of Python `int(raw_aqi)` — `none` when the conversion raises
(e.g. on `"-"` or a missing field). -/
structure WaqiEntry where
  station : RawCity
  city : RawCity
  aqi : Option ℤ
  lat : Option ℚ
  lon : Option ℚ
deriving DecidableEq

/-- The top-level WAQI response body: unparsable, or a parsed object with
a `status` string and a `data` list. -/
inductive WaqiBody
  | junk
  | parsed (status : List Char) (data : List WaqiEntry)
deriving DecidableEq

/-- String-or-object name normalization of `waqi_fetcher.py` lines 36-45
(`.get("name", default)` on an object, `value or default` otherwise; a
key present with value `None` is conflated with an absent key, and a
truthy non-string object stands for its rendering). -/
def waqiName (default : List Char) : RawCity → List Char
  | .str v => if v.isEmpty then default else v
  | .dict nm _ => match nm with | some v => v | none => default
  | .absent => default
  | .other falsy r => if falsy then default else r

/-- A normalized record of `fetch_all_india_wAQI` (lines 54-62). -/
structure WaqiRecord where
  aqi : Option ℤ
  lat : Option ℚ
  lon : Option ℚ
  station_name : List Char
  city : List Char
deriving DecidableEq

def normalizeWaqiEntry (st : WaqiEntry) : WaqiRecord :=
  { aqi := st.aqi, lat := st.lat, lon := st.lon,
    station_name := waqiName ("Unknown Station".toList) st.station,
    city := waqiName ("Unknown City".toList) st.city }

/-- Embedding of `fetch_all_india_wAQI` (`waqi_fetcher.py` lines 12-67):
a timeout propagates, `raise_for_status()` raises on a 4xx/5xx code,
`resp.json()` raises on an unparsable body, a parsed body with
`status != "ok"` raises the explicit `Exception`, and only then is the
normalized station list returned. -/
def fetch_all_india_wAQI : Outcome WaqiBody → Except FetchErr (List WaqiRecord)
  | .timeout => .error .timeout
  | .response code body =>
    if 400 ≤ code then .error (.httpError code)
    else match body with
      | .junk => .error .jsonError
      | .parsed status data =>
        if status ≠ ("ok".toList) then .error .apiError
        else .ok (data.map normalizeWaqiEntry)

/-- The top-level OpenAQ response body (shape irrelevant here). -/
inductive OpenaqBody (α : Type)
  | junk
  | parsed (data : α)
deriving DecidableEq

/-- Embedding of `fetch_openaq_v3` (`live_aqi_fetcher.py` lines 56-59):
`requests.get` / `raise_for_status` / `resp.json()` with no handler, so
every transport failure propagates as an exception. -/
def fetch_openaq_v3 {α : Type} : Outcome (OpenaqBody α) → Except FetchErr α
  | .timeout => .error .timeout
  | .response code body =>
    if 400 ≤ code then .error (.httpError code)
    else match body with
      | .junk => .error .jsonError
      | .parsed d => .ok d

/-- A per-station record surviving the validation loop of
`fetch_india_aqi` (lines 105-112). -/
structure CleanResult where
  city : List Char
  aqi : ℤ
  lat : ℚ
  lon : ℚ
deriving DecidableEq

/-- The per-entry validation of `fetch_india_aqi` (lines 76-112):
station name via `clean_city_name` with the top-level `city` fallback,
parseable AQI, sanity floor 5, coordinates present. -/
def cleanWaqiEntry (st : WaqiEntry) : Option CleanResult :=
  let city_name :=
    match cleanCityName st.station with
    | some n => some n
    | none => cleanCityName st.city
  match city_name with
  | none => none
  | some cn =>
    match st.aqi with
    | none => none
    | some v =>
      if v < 5 then none
      else match st.lat, st.lon with
        | some la, some lo => some ⟨cn, v, la, lo⟩
        | _, _ => none

/-- Embedding of `fetch_india_aqi` (`fetch_india_aqi.py` lines 55-114):
timeouts, 4xx/5xx codes and unparsable bodies raise; a parsed body with
`status != "ok"` returns the empty list; otherwise the validated
entries. -/
def fetch_india_aqi : Outcome WaqiBody → Except FetchErr (List CleanResult)
  | .timeout => .error .timeout
  | .response code body =>
    if 400 ≤ code then .error (.httpError code)
    else match body with
      | .junk => .error .jsonError
      | .parsed status data =>
        if status ≠ ("ok".toList) then .ok []
        else .ok (data.filterMap cleanWaqiEntry)

/-- A transport failure in the sense of the spec: timeout, non-2xx
status (4xx/5xx — the codes `raise_for_status` treats as errors), or an
unparsable top-level body. -/
def WaqiTransportFailure : Outcome WaqiBody → Prop
  | .timeout => True
  | .response code body => 400 ≤ code ∨ body = .junk

def OpenaqTransportFailure {α : Type} : Outcome (OpenaqBody α) → Prop
  | .timeout => True
  | .response code body => 400 ≤ code ∨ body = OpenaqBody.junk

/-- C5 counterexample: the claim says every adapter fetch returns a
(possibly empty) sequence and never raises; on a timeout all three fetch
functions propagate the exception instead of returning an empty
result. -/
theorem c5_counterexample :
    fetch_all_india_wAQI Outcome.timeout = .error .timeout ∧
    fetch_openaq_v3 (Outcome.timeout : Outcome (OpenaqBody Unit)) = .error .timeout ∧
    fetch_india_aqi Outcome.timeout = .error .timeout :=
  ⟨rfl, rfl, rfl⟩

/-- C5 (amended): on every transport failure (timeout, 4xx/5xx status,
or unparsable top-level body) the adapter fetch functions
`fetch_all_india_wAQI`, `fetch_openaq_v3` and `fetch_india_aqi` raise an
exception past the adapter boundary (the `fetch_aqi` caller catches it);
a parsed WAQI body with `status != "ok"` makes `fetch_india_aqi` return
an empty list, while `fetch_all_india_wAQI` raises even then. -/
theorem c5_transport_failure_raises :
    (∀ o : Outcome WaqiBody, WaqiTransportFailure o →
      ∃ e, fetch_all_india_wAQI o = .error e) ∧
    (∀ o : Outcome WaqiBody, WaqiTransportFailure o →
      ∃ e, fetch_india_aqi o = .error e) ∧
    (∀ (α : Type) (o : Outcome (OpenaqBody α)), OpenaqTransportFailure o →
      ∃ e, fetch_openaq_v3 o = .error e) ∧
    (∀ status data, status ≠ ("ok".toList) →
      fetch_india_aqi (.response 200 (.parsed status data)) = .ok []) ∧
    (∀ status data, status ≠ ("ok".toList) →
      fetch_all_india_wAQI (.response 200 (.parsed status data)) = .error .apiError) := by
  refine ⟨?_, ?_, ?_, ?_, ?_⟩
  · rintro (_ | ⟨code, _ | ⟨st, data⟩⟩) hfail
    · exact ⟨.timeout, rfl⟩
    · rcases hfail with hcode | -
      · exact ⟨.httpError code, by rw [fetch_all_india_wAQI, if_pos hcode]⟩
      · by_cases hcode : 400 ≤ code
        · exact ⟨.httpError code, by rw [fetch_all_india_wAQI, if_pos hcode]⟩
        · exact ⟨.jsonError, by rw [fetch_all_india_wAQI, if_neg hcode]⟩
    · rcases hfail with hcode | hjunk
      · exact ⟨.httpError code, by rw [fetch_all_india_wAQI, if_pos hcode]⟩
      · cases hjunk
  · rintro (_ | ⟨code, _ | ⟨st, data⟩⟩) hfail
    · exact ⟨.timeout, rfl⟩
    · rcases hfail with hcode | -
      · exact ⟨.httpError code, by rw [fetch_india_aqi, if_pos hcode]⟩
      · by_cases hcode : 400 ≤ code
        · exact ⟨.httpError code, by rw [fetch_india_aqi, if_pos hcode]⟩
        · exact ⟨.jsonError, by rw [fetch_india_aqi, if_neg hcode]⟩
    · rcases hfail with hcode | hjunk
      · exact ⟨.httpError code, by rw [fetch_india_aqi, if_pos hcode]⟩
      · cases hjunk
  · rintro α (_ | ⟨code, _ | d⟩) hfail
    · exact ⟨.timeout, rfl⟩
    · rcases hfail with hcode | -
      · exact ⟨.httpError code, by rw [fetch_openaq_v3, if_pos hcode]⟩
      · by_cases hcode : 400 ≤ code
        · exact ⟨.httpError code, by rw [fetch_openaq_v3, if_pos hcode]⟩
        · exact ⟨.jsonError, by rw [fetch_openaq_v3, if_neg hcode]⟩
    · rcases hfail with hcode | hjunk
      · exact ⟨.httpError code, by rw [fetch_openaq_v3, if_pos hcode]⟩
      · cases hjunk
  · intro status data hstatus
    rw [fetch_india_aqi, if_neg (by omega), if_pos hstatus]
  · intro status data hstatus
    rw [fetch_all_india_wAQI, if_neg (by omega), if_pos hstatus]

/-- Witness for C5 (amended): a timeout makes `fetch_all_india_wAQI` and
`fetch_openaq_v3` raise, a 500 with unparsable body makes
`fetch_india_aqi` raise, and a parsed `status = "error"` body yields
`ok []` from `fetch_india_aqi` but an exception from
`fetch_all_india_wAQI`. -/
theorem c5_transport_failure_raises_witness :
    (∃ e, fetch_all_india_wAQI Outcome.timeout = .error e) ∧
    (∃ e, fetch_india_aqi (.response 500 .junk) = .error e) ∧
    (∃ e, fetch_openaq_v3 (Outcome.timeout : Outcome (OpenaqBody Unit)) = .error e) ∧
    fetch_india_aqi (.response 200 (.parsed ("error".toList) [])) = .ok [] ∧
    fetch_all_india_wAQI (.response 200 (.parsed ("error".toList) [])) = .error .apiError :=
  ⟨c5_transport_failure_raises.1 Outcome.timeout trivial,
   c5_transport_failure_raises.2.1 (.response 500 .junk) (Or.inl (by omega)),
   c5_transport_failure_raises.2.2.1 Unit Outcome.timeout trivial,
   c5_transport_failure_raises.2.2.2.1 ("error".toList) [] (by decide),
   c5_transport_failure_raises.2.2.2.2 ("error".toList) [] (by decide)⟩

end Aerosense
